import Mathlib

/-!
Verification of the timing and scheduling-support core (`src/timer.c`).

The definitions below are a shallow embedding of the functions of
`src/timer.c`: C `int64_t`/`int` values become `Int`, C unsigned 32-bit
values become `Nat` reduced modulo `2^32` where overflow matters, C
truncating division `/` becomes `Int.tdiv` and C `%` becomes `Int.tmod`.
The fixed-point helpers (`int_to_fixed`, `add_fixed_int`, ...) and the
priority-range constants are declared in headers outside `src/`; they are
modelled from the spec (§4.3: a 17-integer/14-fractional-bit binary
fixed-point format, products and quotients computed in a wide intermediate
with truncating division, rounding to nearest half-away-from-zero).
-/

/-- Modelled from the spec: the fixed-point scale, 2^14, of the
17-integer/14-fractional-bit format of §4.3 (the helper functions are
declared in a header outside src/). -/
def FP : Int := 16384

/-- Modelled from the spec: integer to fixed-point conversion, exact
(multiply by the scale). -/
def int_to_fixed (n : Int) : Int := n * FP

/-- Modelled from the spec: fixed-point plus integer (convert, then exact add). -/
def add_fixed_int (x n : Int) : Int := x + n * FP

/-- Modelled from the spec: fixed-point minus integer. -/
def sub_fixed_int (x n : Int) : Int := x - n * FP

/-- Modelled from the spec: fixed plus fixed, exact integer addition. -/
def add_two_fixed (x y : Int) : Int := x + y

/-- Modelled from the spec: fixed minus fixed, exact integer subtraction. -/
def sub_two_fixed (x y : Int) : Int := x - y

/-- Modelled from the spec: fixed-point times integer (raw multiply). -/
def mul_fixed_int (x n : Int) : Int := x * n

/-- Modelled from the spec: fixed-point divided by integer, C truncating
division. -/
def div_fixed_int (x n : Int) : Int := Int.tdiv x n

/-- Modelled from the spec: fixed times fixed; multiply raw values in a wide
intermediate, then divide by the scale with C truncating division. -/
def mul_two_fixed (x y : Int) : Int := Int.tdiv (x * y) FP

/-- Modelled from the spec: fixed divided by fixed; widen the dividend by the
scale first, then divide by the raw divisor with C truncating division. -/
def div_two_fixed (x y : Int) : Int := Int.tdiv (x * FP) y

/-- Modelled from the spec: fixed-point to nearest integer, rounding
half-away-from-zero (add half the scale for non-negative values, subtract it
for negative ones, then truncate by the scale). -/
def fixed_to_nearest_int (x : Int) : Int :=
  if 0 ≤ x then Int.tdiv (x + FP / 2) FP else Int.tdiv (x - FP / 2) FP

/-- Modelled from the spec: the top of the valid priority range (the code of
timer_interrupt clamps at the literal 63). -/
def PRI_MAX : Int := 63

/-- Modelled from the spec: the bottom of the valid priority range (the code
of timer_interrupt clamps at the literal 0). -/
def PRI_MIN : Int := 0

/-- Per-unit scheduling state mutated by the MLFQS branch of
`timer_interrupt`: `recent_cpu` and `priority` are written by this core,
`nice` is read-only to it, `isIdle` marks the idle thread (excluded from
decay bookkeeping). -/
structure UnitState where
  recent_cpu : Int
  nice : Int
  priority : Int
  isIdle : Bool
  deriving Repr, DecidableEq

/-- Process-wide MLFQS state: the fixed-point load average and the list of
all live units (`get_all_list()` in the code). -/
structure MlfqsState where
  load_avg : Int
  units : List UnitState
  deriving Repr, DecidableEq

/-- Lines 227-228 of `timer_interrupt`: on every tick the currently running
unit's `recent_cpu` is incremented by fixed-point 1 unless it is the idle
unit.  `cur` is the index of the running unit in the all-units list. -/
def tickPhase (cur : Nat) (s : MlfqsState) : MlfqsState :=
  match s.units[cur]? with
  | none => s
  | some u =>
    if u.isIdle then s
    else { s with
           units := s.units.set cur { u with recent_cpu := add_fixed_int u.recent_cpu 1 } }

/-- Lines 232-239 of `timer_interrupt`, the load-average update.  Because of
C operator precedence, the second argument of `mul_fixed_int` on line 238
parses as `(list_size (get_ready_list ()) + thread_current ()) ==
get_idle_thread () ? 0 : 1`: a pointer computed from the ready-list length is
compared with the idle-thread pointer, and the count multiplied in is 0 or 1.
`ptrEq` models the outcome of that accidental pointer comparison; the
ready-list length itself never reaches the arithmetic. -/
def load_avg_code (L : Int) (ptrEq : Bool) : Int :=
  let x1 := int_to_fixed 59
  let x2 := div_fixed_int x1 60
  let x2 := mul_two_fixed x2 L
  let x3 := int_to_fixed 1
  let x4 := div_fixed_int x3 60
  let x4 := mul_fixed_int x4 (if ptrEq then 0 else 1)
  add_two_fixed x2 x4

/-- The load-average update as the spec states it:
`load_avg' = (59/60) * load_avg + (1/60) * ready_count` in fixed point, where
`ready_count` counts the runnable units including the running one and
excluding idle. -/
def load_avg_spec (L : Int) (ready_count : Nat) : Int :=
  add_two_fixed (mul_two_fixed (div_fixed_int (int_to_fixed 59) 60) L)
    (mul_fixed_int (div_fixed_int (int_to_fixed 1) 60) (ready_count : Int))

/-- The per-second load-average write of `timer_interrupt` (line 239) as a
state transition. -/
def loadPhase (ptrEq : Bool) (s : MlfqsState) : MlfqsState :=
  { s with load_avg := load_avg_code s.load_avg ptrEq }

/-- Lines 247-251 of `timer_interrupt`: the recent-cpu decay
`(2*load_avg) / (2*load_avg + 1) * recent_cpu + nice` in fixed point, where
`L` is the global load average read inside the loop. -/
def recent_cpu_code (L rc nice : Int) : Int :=
  let x1 := mul_fixed_int L 2
  let x2 := add_fixed_int x1 1
  let x1 := div_two_fixed x1 x2
  let x1 := mul_two_fixed x1 rc
  add_fixed_int x1 nice

/-- Lines 243-255 of `timer_interrupt`: the per-second recent-cpu loop over
all units, skipping the idle unit, reading the global `load_avg` (already
updated by `loadPhase` when composed as in the code). -/
def cpuPhase (s : MlfqsState) : MlfqsState :=
  { s with
    units := s.units.map fun u =>
      if u.isIdle then u
      else { u with recent_cpu := recent_cpu_code s.load_avg u.recent_cpu u.nice } }

/-- Lines 262-270 of `timer_interrupt`: the priority recomputation for one
unit.  Line 264 passes the plain integer literal 64 to `sub_two_fixed`, which
expects a fixed-point value (the `int_to_fixed 64` computed on line 263 is
overwritten unused), so the minuend is the fixed-point value 64/2^14, not 64. -/
def mlfqs_priority (rc nice : Int) : Int :=
  let x1 := div_fixed_int rc 4
  let x2 := sub_two_fixed 64 x1
  let x2 := sub_fixed_int x2 (nice * 2)
  let p := fixed_to_nearest_int x2
  if p > 63 then 63 else if p < 0 then 0 else p

/-- Lines 257-274 of `timer_interrupt`: the priority loop over all units,
skipping the idle unit. -/
def prioPhase (s : MlfqsState) : MlfqsState :=
  { s with
    units := s.units.map fun u =>
      if u.isIdle then u
      else { u with priority := mlfqs_priority u.recent_cpu u.nice } }

/-- Lines 225-276 of `timer_interrupt`, the `thread_mlfqs` branch, at the
tick value `tick` (already incremented this interrupt), with `tf` the
compile-time `TIMER_FREQ`.  The per-4-ticks priority block (line 257) is
nested inside the per-second block (line 230), exactly as the braces of the
source close. -/
def mlfqsStep (tick tf : Nat) (ptrEq : Bool) (cur : Nat) (s : MlfqsState) : MlfqsState :=
  let s1 := tickPhase cur s
  if tick % tf = 0 then
    let s2 := cpuPhase (loadPhase ptrEq s1)
    if tick % 4 = 0 then prioPhase s2 else s2
  else s1

/-- One entry of the sleep queue `blocked_threads`: the fields of
`struct thread` that `comparator_by_ticks` and the drain loop read, plus an
identity tag for stating exactness of the drained set. -/
structure WakeEntry where
  time_to_wake : Int
  priority : Int
  tid : Nat
  deriving Repr, DecidableEq

/-- Lines 20-30: the ordering predicate handed to `list_insert_ordered`:
strictly earlier wake tick first, equal wake ticks broken by strictly higher
priority. -/
def comparator_by_ticks (a b : WakeEntry) : Bool :=
  if a.time_to_wake < b.time_to_wake then true
  else if a.time_to_wake = b.time_to_wake ∧ b.priority < a.priority then true
  else false

/-- The Pintos `list_insert_ordered` primitive: insert `e` before the first
element `x` with `comparator_by_ticks e x` true. -/
def list_insert_ordered (e : WakeEntry) : List WakeEntry → List WakeEntry
  | [] => [e]
  | x :: xs =>
    if comparator_by_ticks e x then e :: x :: xs else x :: list_insert_ordered e xs

/-- The sortedness order maintained on the sleep queue: ascending wake tick,
ties by descending priority.  `a` may stand directly before `b` exactly when
`comparator_by_ticks b a` is false. -/
def wakeLe (a b : WakeEntry) : Prop :=
  a.time_to_wake < b.time_to_wake ∨
    (a.time_to_wake = b.time_to_wake ∧ b.priority ≤ a.priority)

instance (a b : WakeEntry) : Decidable (wakeLe a b) := by
  unfold wakeLe; infer_instance

/-- Lines 212-223 of `timer_interrupt`: drain the sleep queue at tick `T`;
repeatedly remove and unblock the front entry while its wake tick is ≤ `T`,
stopping at the first entry whose wake tick is still in the future.  Returns
the unblocked entries in unblock order and the remaining queue. -/
def drain (T : Int) : List WakeEntry → List WakeEntry × List WakeEntry
  | [] => ([], [])
  | e :: rest =>
    if T < e.time_to_wake then ([], e :: rest)
    else
      let p := drain T rest
      (e :: p.1, p.2)

/-- Lines 106-125, `timer_sleep`: inside one critical section, set the wake
tick to `now + req`, insert the caller into the sleep queue in sorted
position, and block unconditionally (`thread_block` is called for every
requested duration, including zero and negative ones).  Returns the new queue
and whether the caller blocked. -/
def timer_sleep (now req prio : Int) (tid : Nat) (q : List WakeEntry) :
    List WakeEntry × Bool :=
  (list_insert_ordered ⟨now + req, prio, tid⟩ q, true)

/-- A sleep-queue operation: a `timer_sleep` call or an interrupt-handler
drain. -/
inductive QOp where
  | sleep (now req prio : Int) (tid : Nat)
  | drainAt (T : Int)
  deriving Repr

/-- Apply one queue operation to the sleep queue. -/
def applyOp (q : List WakeEntry) : QOp → List WakeEntry
  | .sleep now req prio tid => (timer_sleep now req prio tid q).1
  | .drainAt T => (drain T q).2

/-- Run a sequence of queue operations starting from the empty queue the
timer initializes. -/
def runOps (ops : List QOp) : List WakeEntry := ops.foldl applyOp []

/-- 2^32, the modulus of the C `unsigned` arithmetic of `timer_calibrate`. -/
def U32 : Nat := 4294967296

/-- Lines 70-74 of `timer_calibrate`, the doubling search, on 32-bit unsigned
arithmetic; `tml` is the outcome of the `too_many_loops` measurement.
Returns `none` when the `ASSERT (loops_per_tick != 0)` fires after the shift
overflows to 0.  `fuel` bounds the number of doublings; from the start value
2^10 the value reaches 0 within 22 doublings, so fuel 32 never runs out. -/
def calibrate_double (tml : Nat → Bool) : Nat → Nat → Option Nat
  | 0, _ => none
  | fuel + 1, lpt =>
    if tml (lpt * 2 % U32) then some lpt
    else if lpt * 2 % U32 = 0 then none
    else calibrate_double tml fuel (lpt * 2 % U32)

/-- Lines 77-80 of `timer_calibrate`, the bit-refinement loop: from
`test_bit = high_bit >> 1` halving down to `high_bit >> 10` (exclusive), OR
the bit into `loops_per_tick` whenever `too_many_loops` says the enlarged
count still fits in one tick.  `fuel` bounds the iterations; the loop runs
exactly 9 times from calibrate's start values, so fuel 32 never runs out. -/
def calibrate_refine (tml : Nat → Bool) (stop : Nat) : Nat → Nat → Nat → Nat
  | 0, lpt, _ => lpt
  | fuel + 1, lpt, test_bit =>
    if test_bit = stop then lpt
    else
      calibrate_refine tml stop fuel
        (if tml (lpt ||| test_bit) then lpt else lpt ||| test_bit) (test_bit / 2)

/-- Lines 59-83, `timer_calibrate`: start from 2^10, double while the doubled
count still fits in a tick, then refine the next bits; `none` models the
fatal overflow assertion. -/
def timer_calibrate (tml : Nat → Bool) : Option Nat :=
  match calibrate_double tml 32 1024 with
  | none => none
  | some high_bit => some (calibrate_refine tml (high_bit >>> 10) 32 high_bit (high_bit >>> 1))

/-- How a real-time delay request is served: a blocking sleep of whole ticks
through the sleep queue, or a calibrated busy-wait. -/
inductive SleepAction where
  | sleepTicks (t : Int)
  | busyWait (loops : Int)
  deriving Repr, DecidableEq

/-- Lines 345-352, `real_time_delay`: busy-wait for
`loops_per_tick * num / 1000 * TIMER_FREQ / (denom / 1000)` iterations, with
C truncating division at each step; `none` models the fatal
`ASSERT (denom % 1000 == 0)`. -/
def real_time_delay (tf lpt num denom : Int) : Option Int :=
  if Int.tmod denom 1000 = 0 then
    some (Int.tdiv (Int.tdiv (lpt * num) 1000 * tf) (Int.tdiv denom 1000))
  else none

/-- Lines 317-342, `real_time_sleep`: convert `num/denom` seconds to
`num * TIMER_FREQ / denom` ticks rounding down; sleep through the sleep queue
when at least one whole tick, otherwise busy-wait via `real_time_delay`. -/
def real_time_sleep (tf lpt num denom : Int) : Option SleepAction :=
  let t := Int.tdiv (num * tf) denom
  if t > 0 then some (SleepAction.sleepTicks t)
  else (real_time_delay tf lpt num denom).map SleepAction.busyWait

/-- Line 130-133, `timer_msleep`. -/
def timer_msleep (tf lpt ms : Int) : Option SleepAction := real_time_sleep tf lpt ms 1000

/-- Lines 137-141, `timer_usleep`. -/
def timer_usleep (tf lpt us : Int) : Option SleepAction :=
  real_time_sleep tf lpt us (1000 * 1000)

/-- Lines 145-149, `timer_nsleep`. -/
def timer_nsleep (tf lpt ns : Int) : Option SleepAction :=
  real_time_sleep tf lpt ns (1000 * 1000 * 1000)

/-- Lines 158-162, `timer_mdelay`. -/
def timer_mdelay (tf lpt ms : Int) : Option Int := real_time_delay tf lpt ms 1000

/-- Lines 171-175, `timer_udelay`. -/
def timer_udelay (tf lpt us : Int) : Option Int := real_time_delay tf lpt us (1000 * 1000)

/-- Lines 184-188, `timer_ndelay`. -/
def timer_ndelay (tf lpt ns : Int) : Option Int :=
  real_time_delay tf lpt ns (1000 * 1000 * 1000)

example : mlfqs_priority 0 0 = 0 := by decide

example : load_avg_code 0 false = 273 ∧ load_avg_spec 0 4 = 1092 := by decide

example : timer_calibrate (fun _ => true) = some 1024 := by decide

example : drain 5 [⟨5, 3, 0⟩, ⟨5, 1, 1⟩, ⟨9, 2, 2⟩] = ([⟨5, 3, 0⟩, ⟨5, 1, 1⟩], [⟨9, 2, 2⟩]) := by
  decide

/-! Sleep-queue ordering lemmas. -/

theorem wakeLe_trans {a b c : WakeEntry} (h1 : wakeLe a b) (h2 : wakeLe b c) :
    wakeLe a c := by
  unfold wakeLe at *; omega

theorem cmp_iff {a b : WakeEntry} :
    comparator_by_ticks a b = true ↔
      a.time_to_wake < b.time_to_wake ∨
        (a.time_to_wake = b.time_to_wake ∧ b.priority < a.priority) := by
  unfold comparator_by_ticks
  split
  · simp_all
  · split <;> simp_all

theorem cmp_true_wakeLe {a b : WakeEntry} (h : comparator_by_ticks a b = true) :
    wakeLe a b := by
  rw [cmp_iff] at h; unfold wakeLe; omega

theorem cmp_false_wakeLe {a b : WakeEntry} (h : ¬ comparator_by_ticks a b = true) :
    wakeLe b a := by
  rw [cmp_iff] at h; unfold wakeLe; omega

theorem insert_perm (e : WakeEntry) (l : List WakeEntry) :
    (list_insert_ordered e l).Perm (e :: l) := by
  induction l with
  | nil => exact List.Perm.refl _
  | cons x xs ih =>
    unfold list_insert_ordered
    split
    · exact List.Perm.refl _
    · exact (ih.cons x).trans (List.Perm.swap e x xs)

theorem insert_sorted {e : WakeEntry} {l : List WakeEntry}
    (hl : List.Pairwise wakeLe l) :
    List.Pairwise wakeLe (list_insert_ordered e l) := by
  induction l with
  | nil => simp [list_insert_ordered]
  | cons x xs ih =>
    rcases List.pairwise_cons.mp hl with ⟨hx, hxs⟩
    unfold list_insert_ordered
    split
    case isTrue hc =>
      refine List.pairwise_cons.mpr ⟨?_, hl⟩
      intro y hy
      rcases List.mem_cons.mp hy with rfl | hy'
      · exact cmp_true_wakeLe hc
      · exact wakeLe_trans (cmp_true_wakeLe hc) (hx y hy')
    case isFalse hc =>
      refine List.pairwise_cons.mpr ⟨?_, ih hxs⟩
      intro y hy
      rcases List.mem_cons.mp ((insert_perm e xs).mem_iff.mp hy) with rfl | hy'
      · exact cmp_false_wakeLe hc
      · exact hx y hy'

theorem drain_eq (T : Int) (l : List WakeEntry) :
    drain T l = (l.takeWhile (fun e => decide (e.time_to_wake ≤ T)),
                 l.dropWhile (fun e => decide (e.time_to_wake ≤ T))) := by
  induction l with
  | nil => rfl
  | cons e rest ih =>
    by_cases h : T < e.time_to_wake
    · have hd : decide (e.time_to_wake ≤ T) = false := by simp; omega
      simp [drain, List.takeWhile_cons, List.dropWhile_cons, h, hd]
    · have hd : decide (e.time_to_wake ≤ T) = true := by simp; omega
      simp [drain, List.takeWhile_cons, List.dropWhile_cons, h, hd, ih]

theorem sorted_takeWhile_eq_filter {T : Int} {l : List WakeEntry}
    (hl : List.Pairwise wakeLe l) :
    l.takeWhile (fun e => decide (e.time_to_wake ≤ T)) =
      l.filter (fun e => decide (e.time_to_wake ≤ T)) := by
  induction l with
  | nil => rfl
  | cons x xs ih =>
    rcases List.pairwise_cons.mp hl with ⟨hx, hxs⟩
    by_cases h : x.time_to_wake ≤ T
    · simp only [List.takeWhile_cons, List.filter_cons, decide_eq_true h]
      simpa using ih hxs
    · have hall : ∀ y ∈ xs, ¬ (decide (y.time_to_wake ≤ T) = true) := by
        intro y hy
        have := hx y hy
        unfold wakeLe at this
        simp only [decide_eq_true_eq]
        omega
      simp only [List.takeWhile_cons, List.filter_cons]
      rw [decide_eq_false h]
      simpa using (List.filter_eq_nil_iff.mpr hall).symm

theorem sorted_dropWhile_eq_filter {T : Int} {l : List WakeEntry}
    (hl : List.Pairwise wakeLe l) :
    l.dropWhile (fun e => decide (e.time_to_wake ≤ T)) =
      l.filter (fun e => decide (T < e.time_to_wake)) := by
  induction l with
  | nil => rfl
  | cons x xs ih =>
    rcases List.pairwise_cons.mp hl with ⟨hx, hxs⟩
    by_cases h : x.time_to_wake ≤ T
    · have hnf : decide (T < x.time_to_wake) = false := by simp; omega
      simp only [List.dropWhile_cons, List.filter_cons, decide_eq_true h, hnf]
      simpa using ih hxs
    · have hall : ∀ y ∈ xs, decide (T < y.time_to_wake) = true := by
        intro y hy
        have := hx y hy
        unfold wakeLe at this
        simp only [decide_eq_true_eq]
        omega
      have hpt : decide (T < x.time_to_wake) = true := by simp; omega
      simp only [List.dropWhile_cons, List.filter_cons, decide_eq_false h, hpt]
      simpa using (List.filter_eq_self.mpr hall).symm

/-! MLFQS phase lemmas. -/

theorem tickPhase_load (cur : Nat) (s : MlfqsState) :
    (tickPhase cur s).load_avg = s.load_avg := by
  unfold tickPhase
  split
  · rfl
  · split <;> rfl

theorem tickPhase_priority (cur : Nat) (s : MlfqsState) (i : Nat) :
    Option.map UnitState.priority ((tickPhase cur s).units)[i]? =
      Option.map UnitState.priority (s.units)[i]? := by
  unfold tickPhase
  split
  · rfl
  case h_2 u heq =>
    split
    · rfl
    · simp only [List.getElem?_set]
      by_cases h : cur = i
      · subst h
        have hlt : cur < s.units.length := by
          by_contra hge
          rw [List.getElem?_eq_none (by omega)] at heq
          cases heq
        simp [hlt, heq]
      · simp [h]

theorem loadPhase_units (ptrEq : Bool) (s : MlfqsState) :
    (loadPhase ptrEq s).units = s.units := rfl

theorem cpuPhase_priority (s : MlfqsState) (i : Nat) :
    Option.map UnitState.priority ((cpuPhase s).units)[i]? =
      Option.map UnitState.priority (s.units)[i]? := by
  unfold cpuPhase
  simp only [List.getElem?_map, Option.map_map]
  cases h : (s.units)[i]? with
  | none => rfl
  | some u =>
    by_cases hi : u.isIdle <;> simp [Function.comp, hi]

theorem prioPhase_recent (s : MlfqsState) (i : Nat) :
    Option.map UnitState.recent_cpu ((prioPhase s).units)[i]? =
      Option.map UnitState.recent_cpu (s.units)[i]? := by
  unfold prioPhase
  simp only [List.getElem?_map, Option.map_map]
  cases h : (s.units)[i]? with
  | none => rfl
  | some u =>
    by_cases hi : u.isIdle <;> simp [Function.comp, hi]

/-- C1: the per-4-ticks priority recomputation does not implement
PRI_MAX - recent_cpu/4 - nice*2.  At the failing input recent_cpu = 0,
nice = 0 the code yields priority 0 (rounding the raw integer 64, i.e. the
fixed-point value 64/2^14, to the nearest integer), not PRI_MAX = 63 as the
claim states. -/
theorem mlfqs_priority_zero_bug :
    mlfqs_priority 0 0 = 0 ∧ PRI_MAX = 63 ∧ ¬ mlfqs_priority 0 0 = PRI_MAX := by
  decide

/-- C2 counterexample: at tick 4 with TIMER_FREQ = 100 the tick is a
multiple of 4 but not a second boundary, and the handler leaves the
(non-idle, current) unit's priority at its old value 50; the recomputation
the claim requires would have produced `mlfqs_priority (add_fixed_int 0 1) 10
= 0 ≠ 50`.  So the per-4-ticks step is not performed at every tick that is a
multiple of 4. -/
theorem mlfqs_per4_counterexample :
    4 % 4 = 0 ∧ ¬ 4 % 100 = 0 ∧
    Option.map UnitState.priority
        ((mlfqsStep 4 100 false 0 ⟨0, [⟨0, 10, 50, false⟩]⟩).units)[0]? = some 50 ∧
    mlfqs_priority (add_fixed_int 0 1) 10 = 0 ∧ ¬ (50 : Int) = 0 := by
  decide

/-- C2 amended: the priority recomputation over the non-idle units runs at
tick T exactly when T mod TIMER_FREQ = 0 AND T mod 4 = 0 — the per-4-ticks
block is nested inside the per-second block — and it then uses the
recent_cpu values updated earlier in the same interrupt; at all other ticks
every unit's priority is unchanged. -/
theorem mlfqs_priority_guard (tick tf : Nat) (ptrEq : Bool) (cur : Nat)
    (s : MlfqsState) (i : Nat) :
    Option.map UnitState.priority ((mlfqsStep tick tf ptrEq cur s).units)[i]? =
      if tick % tf = 0 ∧ tick % 4 = 0 then
        Option.map (fun u => if u.isIdle then u.priority
                             else mlfqs_priority u.recent_cpu u.nice)
          ((cpuPhase (loadPhase ptrEq (tickPhase cur s))).units)[i]?
      else Option.map UnitState.priority (s.units)[i]? := by
  unfold mlfqsStep
  by_cases hs : tick % tf = 0
  · rw [if_pos hs]
    by_cases h4 : tick % 4 = 0
    · rw [if_pos h4, if_pos ⟨hs, h4⟩]
      unfold prioPhase
      simp only [List.getElem?_map, Option.map_map]
      cases h : ((cpuPhase (loadPhase ptrEq (tickPhase cur s))).units)[i]? with
      | none => rfl
      | some u => by_cases hi : u.isIdle <;> simp [Function.comp, hi]
    · rw [if_neg h4, if_neg (by tauto)]
      rw [cpuPhase_priority]
      rw [show (loadPhase ptrEq (tickPhase cur s)).units = (tickPhase cur s).units from rfl]
      exact tickPhase_priority cur s i
  · rw [if_neg hs, if_neg (by tauto)]
    exact tickPhase_priority cur s i

/-- C3: the per-second load-average update does not multiply 1/60 by the
ready count.  Whatever the outcome of the accidental pointer comparison on
line 238, with load_avg = 0 and four runnable units (ready-list length 3
plus the running, non-idle unit) the code produces 0 or 273 in raw
fixed-point, while the claimed value (1/60 of 4 in fixed point) is 1092. -/
theorem load_avg_ready_count_bug (ptrEq : Bool) :
    load_avg_spec 0 4 = 1092 ∧ ¬ load_avg_code 0 ptrEq = load_avg_spec 0 4 := by
  cases ptrEq <;> decide

/-- C6: at a whole-second tick the new recent_cpu of every non-idle unit is
obtained by the decay formula (2*load_avg')/(2*load_avg'+1)*recent_cpu + nice
in fixed point, where load_avg' is the load average freshly written this same
interrupt — the step's final load_avg equals load_avg_code of the old value,
and each unit's new recent_cpu is recent_cpu_code of exactly that fresh
value, never of the stale one. -/
theorem recent_cpu_fresh_load (tick tf : Nat) (ptrEq : Bool) (cur : Nat)
    (s : MlfqsState) (i : Nat) (u : UnitState)
    (hsec : tick % tf = 0)
    (hu : ((tickPhase cur s).units)[i]? = some u) (hidle : u.isIdle = false) :
    (mlfqsStep tick tf ptrEq cur s).load_avg = load_avg_code s.load_avg ptrEq ∧
    Option.map UnitState.recent_cpu ((mlfqsStep tick tf ptrEq cur s).units)[i]? =
      some (recent_cpu_code (load_avg_code s.load_avg ptrEq) u.recent_cpu u.nice) := by
  have hload : (loadPhase ptrEq (tickPhase cur s)).load_avg
      = load_avg_code s.load_avg ptrEq := by
    unfold loadPhase; rw [tickPhase_load]
  have hcpu : Option.map UnitState.recent_cpu
      ((cpuPhase (loadPhase ptrEq (tickPhase cur s))).units)[i]? =
      some (recent_cpu_code (load_avg_code s.load_avg ptrEq) u.recent_cpu u.nice) := by
    unfold cpuPhase
    simp only [List.getElem?_map, Option.map_map]
    rw [show (loadPhase ptrEq (tickPhase cur s)).units = (tickPhase cur s).units from rfl]
    rw [hu]
    simp [Function.comp, hidle, hload]
  unfold mlfqsStep
  rw [if_pos hsec]
  by_cases h4 : tick % 4 = 0
  · rw [if_pos h4]
    refine ⟨?_, ?_⟩
    · rw [show (prioPhase (cpuPhase (loadPhase ptrEq (tickPhase cur s)))).load_avg
          = (cpuPhase (loadPhase ptrEq (tickPhase cur s))).load_avg from rfl]
      rw [show (cpuPhase (loadPhase ptrEq (tickPhase cur s))).load_avg
          = (loadPhase ptrEq (tickPhase cur s)).load_avg from rfl]
      exact hload
    · rw [prioPhase_recent]
      exact hcpu
  · rw [if_neg h4]
    exact ⟨hload, hcpu⟩

/-- C6 witness: a concrete instance of `recent_cpu_fresh_load` at tick 100,
TIMER_FREQ 100, a single non-idle current unit with recent_cpu 0 and nice 0
(incremented to fixed-point 1 by the per-tick phase). -/
theorem recent_cpu_fresh_load_witness :
    100 % 100 = 0 ∧
    ((tickPhase 0 ⟨0, [⟨0, 0, 0, false⟩]⟩).units)[0]? = some ⟨16384, 0, 0, false⟩ ∧
    (⟨16384, 0, 0, false⟩ : UnitState).isIdle = false ∧
    ((mlfqsStep 100 100 false 0 ⟨0, [⟨0, 0, 0, false⟩]⟩).load_avg
        = load_avg_code 0 false ∧
      Option.map UnitState.recent_cpu
          ((mlfqsStep 100 100 false 0 ⟨0, [⟨0, 0, 0, false⟩]⟩).units)[0]? =
        some (recent_cpu_code (load_avg_code 0 false) 16384 0)) :=
  ⟨by decide, by decide, by decide,
    recent_cpu_fresh_load 100 100 false 0 ⟨0, [⟨0, 0, 0, false⟩]⟩ 0
      ⟨16384, 0, 0, false⟩ (by decide) (by decide) (by decide)⟩

/-- C4: draining a sorted queue at tick T removes exactly the entries with
wake tick ≤ T, in queue order (so equal wake ticks come out in
descending-priority order), it never removes an entry whose wake tick
exceeds T — the remainder is exactly the future entries in order — and both
the unblocked sequence and the remaining queue are still sorted. -/
theorem drain_exact (T : Int) (l : List WakeEntry)
    (hl : List.Pairwise wakeLe l) :
    (drain T l).1 = l.filter (fun e => decide (e.time_to_wake ≤ T)) ∧
    (drain T l).2 = l.filter (fun e => decide (T < e.time_to_wake)) ∧
    List.Pairwise wakeLe (drain T l).1 ∧
    List.Pairwise wakeLe (drain T l).2 := by
  have h1 : (drain T l).1 = l.filter (fun e => decide (e.time_to_wake ≤ T)) := by
    rw [drain_eq]; exact sorted_takeWhile_eq_filter hl
  have h2 : (drain T l).2 = l.filter (fun e => decide (T < e.time_to_wake)) := by
    rw [drain_eq]; exact sorted_dropWhile_eq_filter hl
  exact ⟨h1, h2, h1 ▸ hl.filter _, h2 ▸ hl.filter _⟩

/-- C4 witness: at tick 5, a sorted queue with two entries due at 5 (tie
broken by descending priority) and one due at 9 drains exactly the first
two. -/
theorem drain_exact_witness :
    List.Pairwise wakeLe [(⟨5, 3, 0⟩ : WakeEntry), ⟨5, 1, 1⟩, ⟨9, 2, 2⟩] ∧
    ((drain 5 [(⟨5, 3, 0⟩ : WakeEntry), ⟨5, 1, 1⟩, ⟨9, 2, 2⟩]).1 =
        [(⟨5, 3, 0⟩ : WakeEntry), ⟨5, 1, 1⟩, ⟨9, 2, 2⟩].filter
          (fun e => decide (e.time_to_wake ≤ 5)) ∧
      (drain 5 [(⟨5, 3, 0⟩ : WakeEntry), ⟨5, 1, 1⟩, ⟨9, 2, 2⟩]).2 =
        [(⟨5, 3, 0⟩ : WakeEntry), ⟨5, 1, 1⟩, ⟨9, 2, 2⟩].filter
          (fun e => decide (5 < e.time_to_wake)) ∧
      List.Pairwise wakeLe (drain 5 [(⟨5, 3, 0⟩ : WakeEntry), ⟨5, 1, 1⟩, ⟨9, 2, 2⟩]).1 ∧
      List.Pairwise wakeLe (drain 5 [(⟨5, 3, 0⟩ : WakeEntry), ⟨5, 1, 1⟩, ⟨9, 2, 2⟩]).2) :=
  ⟨by decide, drain_exact 5 [⟨5, 3, 0⟩, ⟨5, 1, 1⟩, ⟨9, 2, 2⟩] (by decide)⟩

theorem applyOp_sorted {q : List WakeEntry}
    (hq : List.Pairwise wakeLe q) (op : QOp) :
    List.Pairwise wakeLe (applyOp q op) := by
  cases op with
  | sleep now req prio tid => exact insert_sorted hq
  | drainAt T =>
    show List.Pairwise wakeLe (drain T q).2
    rw [drain_eq]
    exact List.Pairwise.sublist (List.dropWhile_sublist _) hq

/-- C5: for every sequence of timer_sleep insertions and interrupt drains,
starting from the empty queue timer_init creates, the sleep queue is sorted
ascending by wake tick with ties broken by descending priority — each
insertion lands in sorted position and each drain only removes a front
segment, so the invariant holds after every operation. -/
theorem sleep_queue_sorted_invariant (ops : List QOp) :
    List.Pairwise wakeLe (runOps ops) := by
  suffices h : ∀ q, List.Pairwise wakeLe q →
      List.Pairwise wakeLe (ops.foldl applyOp q) from h [] List.Pairwise.nil
  induction ops with
  | nil => intro q hq; exact hq
  | cons op ops ih => intro q hq; exact ih _ (applyOp_sorted hq op)

/-- C7: a zero-or-negative requested duration is handled as a valid edge
case: the wake tick `now + req` is not later than the current tick `now`,
the caller still blocks (thread_block is called unconditionally), and the
entry is among those unblocked by the very next drain, at tick `now + 1`. -/
theorem timer_sleep_nonpositive (now req prio : Int) (tid : Nat)
    (q : List WakeEntry) (hreq : req ≤ 0) (hq : List.Pairwise wakeLe q) :
    now + req ≤ now ∧
    (timer_sleep now req prio tid q).2 = true ∧
    (⟨now + req, prio, tid⟩ : WakeEntry) ∈
      (drain (now + 1) (timer_sleep now req prio tid q).1).1 := by
  refine ⟨by omega, rfl, ?_⟩
  have hsorted : List.Pairwise wakeLe
      (list_insert_ordered ⟨now + req, prio, tid⟩ q) := insert_sorted hq
  show (⟨now + req, prio, tid⟩ : WakeEntry) ∈
      (drain (now + 1) (list_insert_ordered ⟨now + req, prio, tid⟩ q)).1
  have hfst : (drain (now + 1) (list_insert_ordered ⟨now + req, prio, tid⟩ q)).1 =
      (list_insert_ordered ⟨now + req, prio, tid⟩ q).filter
        (fun e => decide (e.time_to_wake ≤ now + 1)) := by
    rw [drain_eq]
    exact sorted_takeWhile_eq_filter hsorted
  rw [hfst]
  refine List.mem_filter.mpr ⟨?_, ?_⟩
  · exact (insert_perm _ _).mem_iff.mpr (List.mem_cons_self _ _)
  · simp only [decide_eq_true_eq]
    omega

/-- C7 witness: a request of 0 ticks at current tick 5 on the empty queue
blocks, gets wake tick 5, and is unblocked by the drain at tick 6. -/
theorem timer_sleep_nonpositive_witness :
    (0 : Int) ≤ 0 ∧ List.Pairwise wakeLe ([] : List WakeEntry) ∧
    ((5 : Int) + 0 ≤ 5 ∧
      (timer_sleep 5 0 1 0 []).2 = true ∧
      (⟨5 + 0, 1, 0⟩ : WakeEntry) ∈ (drain (5 + 1) (timer_sleep 5 0 1 0 []).1).1) :=
  ⟨by decide, List.Pairwise.nil,
    timer_sleep_nonpositive 5 0 1 0 [] (by decide) List.Pairwise.nil⟩

/-- C8: a num/denom-second request is converted to the rounded-down tick
count num*TIMER_FREQ/denom (truncating C division, which equals floor here
because the operands are non-negative); the request is served by the
blocking sleep path exactly when that count is at least one whole tick, and
otherwise by the busy-wait path, whose iteration count is
loops_per_tick * num / 1000 * TIMER_FREQ / (denom / 1000). -/
theorem real_time_sleep_spec (tf lpt num denom : Int)
    (htf : 0 < tf) (hnum : 0 ≤ num) (hden : 0 < denom) :
    Int.tdiv (num * tf) denom = Int.fdiv (num * tf) denom ∧
    (real_time_sleep tf lpt num denom
        = some (SleepAction.sleepTicks (Int.tdiv (num * tf) denom)) ↔
      1 ≤ Int.tdiv (num * tf) denom) ∧
    (Int.tdiv (num * tf) denom < 1 →
      real_time_sleep tf lpt num denom =
        (real_time_delay tf lpt num denom).map SleepAction.busyWait) ∧
    (Int.tmod denom 1000 = 0 →
      real_time_delay tf lpt num denom =
        some (Int.tdiv (Int.tdiv (lpt * num) 1000 * tf) (Int.tdiv denom 1000))) := by
  have hnn : 0 ≤ num * tf := mul_nonneg hnum (le_of_lt htf)
  refine ⟨?_, ?_, ?_, ?_⟩
  · rw [Int.tdiv_eq_ediv hnn (le_of_lt hden), Int.fdiv_eq_ediv _ (le_of_lt hden)]
  · unfold real_time_sleep
    by_cases h : Int.tdiv (num * tf) denom > 0
    · rw [if_pos h]
      constructor
      · intro _; omega
      · intro _; rfl
    · rw [if_neg h]
      constructor
      · intro hc
        exfalso
        cases hx : real_time_delay tf lpt num denom with
        | none => rw [hx] at hc; cases hc
        | some l => rw [hx] at hc; cases hc
      · intro h1; omega
  · intro h1
    unfold real_time_sleep
    rw [if_neg (by omega)]
  · intro hm
    unfold real_time_delay
    rw [if_pos hm]

/-- C8 witness: a 20 ms request at TIMER_FREQ 100 converts to 2 whole ticks
and is served by the blocking sleep. -/
theorem real_time_sleep_spec_witness :
    (0 : Int) < 100 ∧ (0 : Int) ≤ 20 ∧ (0 : Int) < 1000 ∧
    Int.tdiv (20 * 100) 1000 = Int.fdiv (20 * 100) 1000 ∧
    real_time_sleep 100 7 20 1000
      = some (SleepAction.sleepTicks (Int.tdiv (20 * 100) 1000)) :=
  ⟨by decide, by decide, by decide,
    (real_time_sleep_spec 100 7 20 1000 (by decide) (by decide) (by decide)).1,
    (real_time_sleep_spec 100 7 20 1000 (by decide) (by decide) (by decide)).2.1.mpr
      (by decide)⟩

theorem nat_le_or_left (a b : Nat) : a ≤ a ||| b :=
  Nat.le_of_testBit (fun i h => by simp [Nat.testBit_or, h])

theorem calibrate_double_pos (tml : Nat → Bool) :
    ∀ fuel lpt v, 0 < lpt → calibrate_double tml fuel lpt = some v → 0 < v := by
  intro fuel
  induction fuel with
  | zero => intro lpt v _ h; cases h
  | succ n ih =>
    intro lpt v hl h
    unfold calibrate_double at h
    by_cases ht : tml (lpt * 2 % U32)
    · rw [if_pos ht] at h
      cases h
      exact hl
    · rw [if_neg ht] at h
      by_cases hz : lpt * 2 % U32 = 0
      · rw [if_pos hz] at h; cases h
      · rw [if_neg hz] at h
        exact ih _ v (Nat.pos_of_ne_zero hz) h

theorem calibrate_refine_le (tml : Nat → Bool) (stop : Nat) :
    ∀ fuel lpt tb, lpt ≤ calibrate_refine tml stop fuel lpt tb := by
  intro fuel
  induction fuel with
  | zero => intro lpt tb; exact le_refl _
  | succ n ih =>
    intro lpt tb
    unfold calibrate_refine
    by_cases h : tb = stop
    · rw [if_pos h]
    · rw [if_neg h]
      refine le_trans ?_ (ih _ _)
      by_cases ht : tml (lpt ||| tb)
      · rw [if_pos ht]
      · rw [if_neg ht]
        exact nat_le_or_left lpt tb

/-- C9: for every outcome of the too_many_loops measurements, whenever
timer_calibrate completes (its overflow assertion does not fire),
loops_per_tick is strictly positive: the doubling search starts from the
nonzero power of two 2^10 and only grows or aborts, and the bit-refinement
pass only ORs bits in. -/
theorem timer_calibrate_pos (tml : Nat → Bool) (v : Nat)
    (h : timer_calibrate tml = some v) : 0 < v := by
  unfold timer_calibrate at h
  cases hd : calibrate_double tml 32 1024 with
  | none => rw [hd] at h; cases h
  | some hb =>
    rw [hd] at h
    cases h
    exact lt_of_lt_of_le (calibrate_double_pos tml 32 1024 hb (by decide) hd)
      (calibrate_refine_le tml _ 32 hb _)

/-- C9 witness: on a measurement oracle that always reports "too many loops",
calibration stops immediately at 2^10 and refines nothing, and the result is
strictly positive. -/
theorem timer_calibrate_pos_witness :
    timer_calibrate (fun _ => true) = some 1024 ∧ 0 < 1024 :=
  ⟨by decide, timer_calibrate_pos (fun _ => true) 1024 (by decide)⟩

/-- C10: the divisibility assertion of real_time_delay is unreachable through
the public interface: timer_mdelay, timer_udelay and timer_ndelay pass the
denominators 1000, 1000*1000 and 1000*1000*1000, all divisible by 1000, and
so do the busy-wait branches of timer_msleep, timer_usleep and timer_nsleep,
so for every argument value no public path returns the assertion failure. -/
theorem public_delay_denoms (tf lpt n : Int) :
    (timer_mdelay tf lpt n).isSome = true ∧
    (timer_udelay tf lpt n).isSome = true ∧
    (timer_ndelay tf lpt n).isSome = true ∧
    ¬ timer_msleep tf lpt n = none ∧
    ¬ timer_usleep tf lpt n = none ∧
    ¬ timer_nsleep tf lpt n = none := by
  have hd1 : Int.tmod 1000 1000 = 0 := by decide
  have hd2 : Int.tmod 1000000 1000 = 0 := by decide
  have hd3 : Int.tmod 1000000000 1000 = 0 := by decide
  refine ⟨?_, ?_, ?_, ?_, ?_, ?_⟩
  · simp [timer_mdelay, real_time_delay, hd1]
  · simp [timer_udelay, real_time_delay, hd2]
  · simp [timer_ndelay, real_time_delay, hd3]
  · simp only [timer_msleep, real_time_sleep, real_time_delay, hd1, if_true]
    split <;> simp [hd1]
  · simp only [timer_usleep, real_time_sleep, real_time_delay, hd2, if_true]
    split <;> simp [hd2]
  · simp only [timer_nsleep, real_time_sleep, real_time_delay, hd3, if_true]
    split <;> simp [hd3]
